import Mathlib

/-!
Verification of the SVT extractor module (`youtube_dl/extractor/svt.py`).

The raw provider payloads are JSON-shaped Python values, modelled by `JVal`.
Python dicts are association lists in insertion order; `d[k]` raises `KeyError`
when the key is missing, `d.get(k, default)` is total on dicts, and both fail
with `AttributeError`/`TypeError` on non-dict receivers.  Fallible code is
embedded in `Except ExtErr`.

External collaborators (the HLS/HDS/DASH manifest decoders, the shared format
ranking, and the free-form timestamp parser) are parameters collected in `Env`,
matching the spec's description of them as out-of-scope collaborators.
-/

/-- A JSON-shaped Python value as handled by the extractor. -/
inductive JVal where
  | null
  | bool (b : Bool)
  | num (n : Int)
  | str (s : String)
  | arr (xs : List JVal)
  | obj (kvs : List (String × JVal))

mutual

/-- Structural equality on `JVal` (Python `==` on these shapes). -/
def JVal.beq : JVal → JVal → Bool
  | .null, .null => true
  | .bool a, .bool b => a == b
  | .num a, .num b => a == b
  | .str a, .str b => a == b
  | .arr a, .arr b => JVal.beqList a b
  | .obj a, .obj b => JVal.beqKVs a b
  | _, _ => false

def JVal.beqList : List JVal → List JVal → Bool
  | [], [] => true
  | x :: xs, y :: ys => JVal.beq x y && JVal.beqList xs ys
  | _, _ => false

def JVal.beqKVs : List (String × JVal) → List (String × JVal) → Bool
  | [], [] => true
  | (k1, v1) :: xs, (k2, v2) :: ys => k1 == k2 && JVal.beq v1 v2 && JVal.beqKVs xs ys
  | _, _ => false

end

/-- Python truthiness of a `JVal` (`bool(v)`). -/
def truthy : JVal → Bool
  | .null => false
  | .bool b => b
  | .num n => !(n == 0)
  | .str s => !(s == "")
  | .arr xs => !xs.isEmpty
  | .obj kvs => !kvs.isEmpty

/-- `v is None` — whether the value is Python `None`. -/
def isNull : JVal → Bool
  | .null => true
  | _ => false

/-- Errors the embedded code can raise. -/
inductive ExtErr where
  | keyError (k : String)
  | typeError
  | attributeError
  | geoRestricted (msg : String) (countries : List String)
deriving DecidableEq, Repr

/-- Key lookup in a dict value; `none` when the key is missing or the value is
not a dict (used where Python catches the resulting exception). -/
def JVal.lookup? : JVal → String → Option JVal
  | .obj kvs, k => List.lookup k kvs
  | _, _ => none

/-- Python `d[k]`: `KeyError` when the key is missing, `TypeError` when `d` is
not a dict. -/
def pyIndex (v : JVal) (k : String) : Except ExtErr JVal :=
  match v with
  | .obj kvs =>
    match List.lookup k kvs with
    | some x => .ok x
    | none => .error (.keyError k)
  | _ => .error .typeError

/-- Python `d.get(k, dflt)`: total on dicts, `AttributeError` otherwise. -/
def pyGet (v : JVal) (k : String) (dflt : JVal) : Except ExtErr JVal :=
  match v with
  | .obj kvs => .ok ((List.lookup k kvs).getD dflt)
  | _ => .error .attributeError

/-- Python `for x in v`: lists yield elements, dicts their keys, strings their
characters; other values raise `TypeError`. -/
def pyIterList : JVal → Except ExtErr (List JVal)
  | .arr xs => .ok xs
  | .obj kvs => .ok (kvs.map fun kv => .str kv.1)
  | .str s => .ok (s.data.map fun c => .str c.toString)
  | _ => .error .typeError

/-- Python `str(v)` for the scalar shapes the extractor feeds it (`compat_str`
from the repository's utils, absent from src/); container reprs are not needed
by any call site modelled here. -/
def pyStr : JVal → String
  | .null => "None"
  | .bool b => if b then "True" else "False"
  | .num n => toString n
  | .str s => s
  | .arr _ => "<list>"
  | .obj _ => "<dict>"

/-- The characters before the first occurrence of `sep` (Python
`s.partition(sep)[0]`). -/
def takeBeforeChar (sep : Char) : List Char → List Char
  | [] => []
  | c :: rest => if c == sep then [] else c :: takeBeforeChar sep rest

/-- The characters after the last occurrence of `sep`, or `none` when `sep`
does not occur (Python `s.rpartition(sep)[2]`). -/
def afterLastSep (sep : Char) : List Char → Option (List Char)
  | [] => none
  | c :: rest =>
    match afterLastSep sep rest with
    | some g => some g
    | none => if c == sep then some rest else none

/-- Modelled from the spec: the URL file-extension inspector (`determine_ext`
from the repository's utils, absent from src/).  §4.2: "inspect the URL's file
extension" — the text after the last dot, with any query string removed; when
there is no usable alphanumeric extension a default marker is returned. -/
def determine_ext (url : String) : String :=
  match afterLastSep '.' (takeBeforeChar '?' url.data) with
  | none => "unknown_video"
  | some g =>
    if !g.isEmpty && g.all (fun c => c.isAlphanum) then ⟨g⟩
    else "unknown_video"

/-- `determine_ext` applied to an arbitrary value: Python returns the default
for `None` and raises `TypeError` for other non-strings. -/
def determine_ext_j : JVal → Except ExtErr String
  | .null => .ok "unknown_video"
  | .str s => .ok (determine_ext s)
  | _ => .error .typeError

/-- Modelled from the spec: `dict_get` (from the repository's utils, absent
from src/).  §9: a "priority list per logical field, evaluated in fixed order,
first present wins"; §4.1 notes that the `age_limit` lookup "explicitly
distinguish[es] false from absent", so in the default mode a present-but-empty
value is skipped (`skipFalse = true`) while in the distinguishing mode only a
missing or `None` value is skipped (`skipFalse = false`). -/
def dict_get (v : JVal) (keys : List String) (dflt : JVal) (skipFalse : Bool) : JVal :=
  match keys with
  | [] => dflt
  | k :: ks =>
    match JVal.lookup? v k with
    | none => dict_get v ks dflt skipFalse
    | some x =>
      if isNull x then dict_get v ks dflt skipFalse
      else if skipFalse && !truthy x then dict_get v ks dflt skipFalse
      else x

/-- Modelled from the spec: `int_or_none` (from the repository's utils, absent
from src/).  §4.1: values are "coerced to integer seconds; non-numeric →
null". -/
def int_or_none : JVal → JVal
  | .num n => .num n
  | .bool b => .num (if b then 1 else 0)
  | .str s =>
    match s.toInt? with
    | some n => .num n
    | none => .null
  | _ => .null

/-- Modelled from the spec: `merge_dicts` (from the repository's utils, absent
from src/).  §4.1: "any key present and non-empty in `raw`-derived fields
overwrites `base`; keys not derivable are left untouched from `base` (never
forcibly nulled)."  A derived key that `base` lacks is added to the result
unless its value is `None` (§8 requires a fresh `age_limit` of 0 to survive). -/
def merge_dicts (base new : List (String × JVal)) : List (String × JVal) :=
  base.map (fun kv =>
    match List.lookup kv.1 new with
    | some v => if truthy v then (kv.1, v) else kv
    | none => kv)
  ++ new.filter (fun kv => (List.lookup kv.1 base).isNone && !isNull kv.2)

/-- One recorded invocation of a manifest-decoder collaborator, with the
arguments the extractor passed it. -/
inductive DecoderCall where
  | hls (url vid ext protocol : String) (m3u8_id : JVal)
  | hds (url vid : String) (f4m_id : JVal)
  | dash (url vid : String) (mpd_id : JVal)

/-- The external collaborators (spec §1 and §6): manifest decoders
(`_extract_m3u8_formats` / `_extract_f4m_formats` / `_extract_mpd_formats`),
the shared format ranking (`_sort_formats`, guaranteed only to reorder), and
the free-form timestamp parser (`unified_timestamp`). -/
structure Env where
  hls : String → String → String → String → JVal → List JVal
  hds : String → String → JVal → List JVal
  dash : String → String → JVal → List JVal
  sortFormats : List JVal → List JVal
  sortFormats_perm : ∀ l, List.Perm (sortFormats l) l
  unified_timestamp : JVal → JVal

/-- Python `player_type == 'dashhbbtv'` (svt.py line 77). -/
def isDashHbbtv : JVal → Bool
  | .str s => s == "dashhbbtv"
  | _ => false

/-- The reference's player-type tag, svt.py line 64:
`vr.get('playerType') or vr.get('format')`. -/
def playerTypeOf (vr : JVal) : Except ExtErr JVal := do
  let pt ← pyGet vr "playerType" .null
  if truthy pt then pure pt else pyGet vr "format" .null

/-- The body of the `for vr in video_info['videoReferences']` loop of
`SVTBaseIE._extract_video` (svt.py lines 63-84): the renditions one reference
contributes, paired with the decoder invocations it makes. -/
def processRef (env : Env) (islive : Bool) (vid : String) (vr : JVal) :
    Except ExtErr (List JVal × List DecoderCall) := do
  let player_type ← playerTypeOf vr
  let vurl ← pyIndex vr "url"
  match vurl with
  | .str s =>
    let ext := determine_ext s
    if ext == "m3u8" then
      let proto := if islive then "m3u8" else "m3u8_native"
      pure (env.hls s vid "mp4" proto player_type,
            [DecoderCall.hls s vid "mp4" proto player_type])
    else if ext == "f4m" then
      pure (env.hds (s ++ "?hdcore=3.3.0") vid player_type,
            [DecoderCall.hds (s ++ "?hdcore=3.3.0") vid player_type])
    else if ext == "mpd" then
      if isDashHbbtv player_type then
        pure (env.dash s vid player_type, [DecoderCall.dash s vid player_type])
      else pure ([], [])
    else
      pure ([JVal.obj [("format_id", player_type), ("url", vurl)]], [])
  | .null =>
    pure ([JVal.obj [("format_id", player_type), ("url", vurl)]], [])
  | _ => .error .typeError

/-- The whole reference loop: contributions concatenated in order. -/
def processRefs (env : Env) (islive : Bool) (vid : String) :
    List JVal → Except ExtErr (List JVal × List DecoderCall)
  | [] => pure ([], [])
  | vr :: rest => do
    let (fs, cs) ← processRef env islive vid vr
    let (fs2, cs2) ← processRefs env islive vid rest
    pure (fs ++ fs2, cs ++ cs2)

/-- svt.py line 85: `video_info.get('rights', {}).get('geoBlockedSweden')`,
evaluated for truthiness. -/
def geoCheck (vi : JVal) : Except ExtErr Bool := do
  let r ← pyGet vi "rights" (.obj [])
  let g ← pyGet r "geoBlockedSweden" .null
  pure (truthy g)

/-- Insertion-ordered append into a language-keyed group
(`subtitles.setdefault(subtitle_lang, []).append(...)`, svt.py line 102). -/
def subGroupAdd (m : List (JVal × List JVal)) (k : JVal) (v : JVal) :
    List (JVal × List JVal) :=
  match m with
  | [] => [(k, [v])]
  | (k', vs) :: rest =>
    if JVal.beq k' k then (k', vs ++ [v]) :: rest
    else (k', vs) :: subGroupAdd rest k v

/-- The `for sr in subtitle_references` loop of svt.py lines 94-102, with the
group map threaded through as `acc`. -/
def buildSubtitlesGo (acc : List (JVal × List JVal)) :
    List JVal → Except ExtErr (List (JVal × List JVal))
  | [] => .ok acc
  | sr :: rest => do
    let u ← pyGet sr "url" .null
    let lang ← pyGet sr "language" (.str "sv")
    if truthy u then
      match u with
      | .str s =>
        if determine_ext s == "m3u8" then buildSubtitlesGo acc rest
        else buildSubtitlesGo (subGroupAdd acc lang (JVal.obj [("url", u)])) rest
      | _ => .error .typeError
    else buildSubtitlesGo acc rest

/-- The subtitle grouping applied to a reference list, starting empty. -/
def buildSubtitles (xs : List JVal) : Except ExtErr (List (JVal × List JVal)) :=
  buildSubtitlesGo [] xs

/-- svt.py line 92: the subtitle source,
`dict_get(video_info, ('subtitles', 'subtitleReferences'))`. -/
def subtitle_source (vi : JVal) : JVal :=
  dict_get vi ["subtitles", "subtitleReferences"] JVal.null true

/-- svt.py lines 91-102: the subtitle references are processed only when the
source is literally a list (`isinstance(subtitle_references, list)`). -/
def resolve_subtitles (vi : JVal) : Except ExtErr (List (JVal × List JVal)) :=
  match subtitle_source vi with
  | .arr xs => buildSubtitles xs
  | _ => .ok []

/-- svt.py lines 35-36: `try_get(video_info, (lambda x: x['validFrom'],
lambda x: x['rights']['validFrom']))` — the first getter that does not raise
wins; both raising gives `None`. -/
def validFromOf (vi : JVal) : JVal :=
  match JVal.lookup? vi "validFrom" with
  | some v => v
  | none =>
    match JVal.lookup? vi "rights" with
    | some r =>
      match JVal.lookup? r "validFrom" with
      | some v => v
      | none => .null
    | none => .null

/-- svt.py lines 31-33: read `thumbnail` and, when truthy, replace the literal
`\x7bformat\x7d` placeholder with `extralarge`; a truthy non-string raises. -/
def thumbnailOf (kvs : List (String × JVal)) : Except ExtErr JVal :=
  let t0 := (List.lookup "thumbnail" kvs).getD JVal.null
  if truthy t0 then
    match t0 with
    | .str s => .ok (JVal.str (s.replace "{format}" "extralarge"))
    | _ => .error .attributeError
  else .ok t0

/-- The raw-derived field dictionary of `SVTBaseIE._extract_metadata`
(svt.py lines 23-57, the literal dict at lines 46-57), for a dict
`video_info`. -/
def derive_fields_obj (env : Env) (kvs : List (String × JVal)) :
    Except ExtErr (List (String × JVal)) :=
  match thumbnailOf kvs with
  | .error e => .error e
  | .ok thumbnail =>
    let g := fun k => (List.lookup k kvs).getD JVal.null
    let vi := JVal.obj kvs
    let adult := dict_get vi ["inappropriateForChildren", "blockedForChildren"] .null false
    .ok [("title", g "title"),
         ("thumbnail", thumbnail),
         ("description", g "description"),
         ("timestamp", env.unified_timestamp (validFromOf vi)),
         ("duration", int_or_none (dict_get vi ["materialLength", "contentDuration"] .null true)),
         ("age_limit", if isNull adult then JVal.null
                       else if truthy adult then JVal.num 18 else JVal.num 0),
         ("series", g "programTitle"),
         ("season_number", int_or_none (g "season")),
         ("episode", g "episodeTitle"),
         ("episode_number", int_or_none (g "episodeNumber"))]

/-- The raw-derived fields for an arbitrary `video_info` value; a non-dict
raises on the first `.get`. -/
def derived_fields (env : Env) (vi : JVal) : Except ExtErr (List (String × JVal)) :=
  match vi with
  | .obj kvs => derive_fields_obj env kvs
  | _ => .error .attributeError

/-- `SVTBaseIE._extract_metadata(info, video_info)` (svt.py lines 23-57):
merge the raw-derived fields into the partial item `info`. -/
def extract_metadata (env : Env) (base : List (String × JVal)) (vi : JVal) :
    Except ExtErr (List (String × JVal)) :=
  match derived_fields env vi with
  | .ok d => .ok (merge_dicts base d)
  | .error e => .error e

/-- Encoding of the language-grouped subtitle map back into a `JVal` for the
item dictionary (only string languages occur in practice; the encoding is not
examined by any further logic). -/
def encodeSubs (m : List (JVal × List JVal)) : JVal :=
  .obj (m.map fun kv => (pyStr kv.1, JVal.arr kv.2))

/-- The tail of `_extract_video` after the geo-block check (svt.py lines
89-109): rank the renditions, group the subtitles, and merge the metadata
into the partial item. -/
def finishVideo (env : Env) (vi : JVal) (vid : String)
    (fc : List JVal × List DecoderCall) :
    Except ExtErr (List (String × JVal) × List DecoderCall) := do
  let sorted := env.sortFormats fc.1
  let subs ← resolve_subtitles vi
  let base : List (String × JVal) :=
    [("id", JVal.str vid), ("formats", JVal.arr sorted),
     ("subtitles", encodeSubs subs),
     ("is_live", dict_get vi ["live", "simulcast"] (.bool false) true)]
  match extract_metadata env base vi with
  | .ok info => pure (info, fc.2)
  | .error e => Except.error e

/-- `SVTBaseIE._extract_video(video_info, video_id)` (svt.py lines 59-109),
paired with the list of manifest-decoder invocations it performed. -/
def extract_video (env : Env) (vi : JVal) (vid : String) :
    Except ExtErr (List (String × JVal) × List DecoderCall) := do
  let is_live := dict_get vi ["live", "simulcast"] (.bool false) true
  let refsVal ← pyIndex vi "videoReferences"
  let refs ← pyIterList refsVal
  let fc ← processRefs env (truthy is_live) vid refs
  if fc.1.isEmpty then
    let g ← geoCheck vi
    if g then
      Except.error (ExtErr.geoRestricted "This video is only available in Sweden" ["SE"])
    else pure ()
  else pure ()
  finishVideo env vi vid fc

/-- svt.py line 272: `try_get(data, lambda x: x['videoPage']['video'], dict)` —
the nested object, accepted only when it is a dict. -/
def videoPageVideoOf (data : JVal) : Option JVal :=
  match JVal.lookup? data "videoPage" with
  | some vp =>
    match JVal.lookup? vp "video" with
    | some (.obj kvs) => some (.obj kvs)
    | _ => none
  | none => none

/-- Step 5 of `SVTPlayIE._real_extract` (svt.py lines 271-274): when the
embedded blob carries a truthy `videoPage.video` dict, re-run the metadata
merge with the item so far as the base. -/
def step5 (env : Env) (data : JVal) (info_dict : List (String × JVal)) :
    Except ExtErr (List (String × JVal)) :=
  if truthy data then
    match videoPageVideoOf data with
    | some vd => if truthy vd then extract_metadata env info_dict vd else .ok info_dict
    | none => .ok info_dict
  else .ok info_dict

/-- Modelled from the spec: the four extractors' URL-pattern matchers.  The
base `suitable(url)` behavior (`InfoExtractor.suitable` in the repository's
common extractor module, absent from src/) is "does this extractor's URL
pattern match the URL"; the regex engine itself is external, so the four
pattern-match functions are abstract parameters. -/
structure Matchers where
  svtMatch : String → Bool
  svtPlayMatch : String → Bool
  svtSeriesMatch : String → Bool
  svtPageMatch : String → Bool

/-- `SVTIE.suitable` — the inherited pattern match on `_VALID_URL`
(svt.py line 113). -/
def svtSuitable (m : Matchers) (url : String) : Bool := m.svtMatch url

/-- `SVTPlayIE.suitable` — the inherited pattern match on `_VALID_URL`
(svt.py lines 153-158). -/
def svtPlaySuitable (m : Matchers) (url : String) : Bool := m.svtPlayMatch url

/-- `SVTSeriesIE.suitable` (svt.py lines 302-304): refuse any URL that `SVTIE`
or `SVTPlayIE` claims, otherwise the inherited pattern match. -/
def svtSeriesSuitable (m : Matchers) (url : String) : Bool :=
  if svtSuitable m url || svtPlaySuitable m url then false else m.svtSeriesMatch url

/-- `SVTPageIE.suitable` (svt.py lines 401-403): refuse any URL that `SVTIE`
claims, otherwise the inherited pattern match. -/
def svtPageSuitable (m : Matchers) (url : String) : Bool :=
  if svtSuitable m url then false else m.svtPageMatch url

/-- One emitted forward-reference (`InfoExtractor.url_result`): the `svt:<id>`
URL, the target extractor key, and the video id. -/
structure UrlResult where
  url : String
  ieKey : String
  vid : String

/-- `_process_content` inside `SVTPageIE._real_extract` (svt.py lines
414-418): a node whose `_type` is `VIDEOCLIP` or `VIDEOEPISODE` yields one
forward-reference with id `content['image']['svtId']`; other nodes yield
nothing. -/
def process_content (c : JVal) : Except ExtErr (List UrlResult) := do
  let t ← pyGet c "_type" JVal.null
  let qualifies := match t with
    | .str s => s == "VIDEOCLIP" || s == "VIDEOEPISODE"
    | _ => false
  if qualifies then
    let img ← pyIndex c "image"
    let sid ← pyIndex img "svtId"
    pure [⟨"svt:" ++ pyStr sid, "SVTPlay", pyStr sid⟩]
  else
    pure []

/-- The `for media in article.get('media', [])` loop (svt.py lines 420-421). -/
def processMedia : List JVal → Except ExtErr (List UrlResult)
  | [] => .ok []
  | x :: rest => do
    let r ← process_content x
    let rs ← processMedia rest
    pure (r ++ rs)

/-- The `for obj in article.get('structuredBody', [])` loop (svt.py lines
423-424): each entry's `content` object (`obj.get('content') or \x7b\x7d`) is
examined the same way. -/
def processStructuredBody : List JVal → Except ExtErr (List UrlResult)
  | [] => .ok []
  | x :: rest => do
    let c0 ← pyGet x "content" JVal.null
    let r ← process_content (if truthy c0 then c0 else JVal.obj [])
    let rs ← processStructuredBody rest
    pure (r ++ rs)

/-- The playlist-entry construction of `SVTPageIE._real_extract` (svt.py lines
412-424): the media list first, then the structured-body contents, in
encounter order. -/
def page_entries (article : JVal) : Except ExtErr (List UrlResult) := do
  let media ← pyGet article "media" (JVal.arr [])
  let ml ← pyIterList media
  let e1 ← processMedia ml
  let sb ← pyGet article "structuredBody" (JVal.arr [])
  let sl ← pyIterList sb
  let e2 ← processStructuredBody sl
  pure (e1 ++ e2)

/-- Whether a page content node has a qualifying `_type` tag. -/
def qualifiesVideo (c : JVal) : Bool :=
  match JVal.lookup? c "_type" with
  | some (.str s) => s == "VIDEOCLIP" || s == "VIDEOEPISODE"
  | _ => false

/-- A qualifying content node that lacks the `image` field, or whose `image`
dict lacks `svtId` — the malformed shape claim C10 talks about. -/
def badQualMissing (c : JVal) : Bool :=
  qualifiesVideo c &&
    (match c with
     | .obj kvs =>
       match List.lookup "image" kvs with
       | none => true
       | some (.obj ikvs) => (List.lookup "svtId" ikvs).isNone
       | some _ => false
     | _ => false)

/-- Whether `_process_content` succeeds on a node. -/
def contentOk (c : JVal) : Bool := (process_content c).isOk

/-- Whether one structured-body entry is processed without error. -/
def sbItemOk (x : JVal) : Bool :=
  (do
    let c0 ← pyGet x "content" JVal.null
    process_content (if truthy c0 then c0 else JVal.obj [])
    : Except ExtErr (List UrlResult)).isOk

/-- A structured-body entry whose `content` is a truthy malformed qualifying
node. -/
def sbBad (x : JVal) : Bool :=
  match x with
  | .obj kvs =>
    match List.lookup "content" kvs with
    | some c0 => truthy c0 && badQualMissing c0
    | none => false
  | _ => false

/-- Lookup in the language-keyed subtitle group map (first matching key;
`buildSubtitles` keeps keys unique, so this is the group of that language). -/
def assocFind (m : List (JVal × List JVal)) (k : JVal) : List JVal :=
  match m with
  | [] => []
  | (k', vs) :: rest => if JVal.beq k' k then vs else assocFind rest k

/-- The spec's description of one language's subtitle group (spec §4.2): the
entries with a truthy URL whose extension is not `.m3u8`, whose language
(defaulting to `sv` when the key is missing) is the given one, in encounter
order.  Stated from the spec's words for comparison with `buildSubtitles`. -/
def specSubtitleGroup (xs : List JVal) (lang : JVal) : List JVal :=
  xs.filterMap fun sr =>
    match sr with
    | .obj kvs =>
      let u := (List.lookup "url" kvs).getD JVal.null
      let l := (List.lookup "language" kvs).getD (JVal.str "sv")
      if truthy u then
        match u with
        | .str s =>
          if determine_ext s == "m3u8" then none
          else if JVal.beq l lang then some (JVal.obj [("url", u)]) else none
        | _ => none
      else none
    | _ => none

/-- Well-formedness of one subtitle reference entry for claim C5: a dict whose
`url`, when present and truthy, is a string. -/
def subWF (sr : JVal) : Bool :=
  match sr with
  | .obj kvs =>
    match List.lookup "url" kvs with
    | some u => !truthy u || (match u with | .str _ => true | _ => false)
    | none => true
  | _ => false

/-- Well-formedness of one video reference for claim C6: a dict whose `url` is
a string with a non-adaptive extension. -/
def directRefWF (vr : JVal) : Bool :=
  match vr with
  | .obj kvs =>
    match List.lookup "url" kvs with
    | some (.str s) =>
      !(determine_ext s == "m3u8") && !(determine_ext s == "f4m")
        && !(determine_ext s == "mpd")
    | _ => false
  | _ => false

/-- The direct progressive rendition a reference turns into on the
non-adaptive path (svt.py lines 80-84), read off the reference. -/
def directFormat (vr : JVal) : JVal :=
  JVal.obj [("format_id", ((playerTypeOf vr).toOption).getD JVal.null),
            ("url", ((pyIndex vr "url").toOption).getD JVal.null)]

/-- A concrete environment instantiation used by the evaluation witnesses:
decoders that return one tagged rendition, an identity ranking, and a
timestamp parser that always fails. -/
def sampleEnv : Env :=
  ⟨fun u _ e p m => [JVal.obj [("url", .str u), ("ext", .str e), ("protocol", .str p), ("format_id", m)]],
   fun u _ m => [JVal.obj [("url", .str u), ("format_id", m)]],
   fun u _ m => [JVal.obj [("url", .str u), ("format_id", m)]],
   fun l => l,
   fun l => List.Perm.refl l,
   fun _ => JVal.null⟩

/-- A concrete matcher instantiation (all four patterns accept) used by the
mutual-exclusion witness. -/
def sampleMatchers : Matchers :=
  ⟨fun _ => true, fun _ => true, fun _ => true, fun _ => true⟩

/-- Whether a video reference is a dict carrying a string `url`. -/
def refHasStrUrl (vr : JVal) : Bool :=
  match vr with
  | .obj k =>
    match List.lookup "url" k with
    | some (.str _) => true
    | _ => false
  | _ => false

theorem isDashHbbtv_iff (v : JVal) : isDashHbbtv v = true ↔ v = .str "dashhbbtv" := by
  cases v <;> simp [isDashHbbtv]

/-- C8: URL-matcher mutual exclusion — for every URL and every instantiation
of the underlying pattern matchers, if `SVTIE.suitable` accepts the URL then
both `SVTSeriesIE.suitable` and `SVTPageIE.suitable` reject it, and if
`SVTPlayIE.suitable` accepts it then `SVTSeriesIE.suitable` rejects it
(svt.py lines 302-304 and 401-403). -/
theorem suitable_mutual_exclusion (m : Matchers) (url : String) :
    (svtSuitable m url = true →
      svtSeriesSuitable m url = false ∧ svtPageSuitable m url = false)
    ∧ (svtPlaySuitable m url = true → svtSeriesSuitable m url = false) := by
  refine ⟨fun h => ⟨?_, ?_⟩, fun h => ?_⟩ <;>
    simp [svtSeriesSuitable, svtPageSuitable, h]

/-- Witness for C8 at a concrete matcher instantiation and URL. -/
theorem suitable_mutual_exclusion_witness :
    (svtSeriesSuitable sampleMatchers "http://www.svt.se/wd?widgetId=1&articleId=2" = false
      ∧ svtPageSuitable sampleMatchers "http://www.svt.se/wd?widgetId=1&articleId=2" = false)
    ∧ svtSeriesSuitable sampleMatchers "svt:123" = false :=
  ⟨(suitable_mutual_exclusion sampleMatchers
      "http://www.svt.se/wd?widgetId=1&articleId=2").1 (by rfl),
   (suitable_mutual_exclusion sampleMatchers "svt:123").2 (by rfl)⟩

/-- C4: for a videoReference whose URL has extension `.mpd`, the DASH manifest
decoder is invoked exactly when the reference's player-type tag equals
`dashhbbtv`, contributing that decoder's renditions; with any other player-type
tag the reference contributes zero renditions and makes no decoder call
(svt.py lines 76-79; reference contributions concatenate via `processRefs`). -/
theorem mpd_dispatch_only_dashhbbtv (env : Env) (islive : Bool) (vid : String)
    (vr : JVal) (pt : JVal) (s : String)
    (hpt : playerTypeOf vr = .ok pt) (hurl : pyIndex vr "url" = .ok (.str s))
    (hext : determine_ext s = "mpd") :
    (pt = .str "dashhbbtv" →
      processRef env islive vid vr =
        .ok (env.dash s vid pt, [DecoderCall.dash s vid pt]))
    ∧ (pt ≠ .str "dashhbbtv" → processRef env islive vid vr = .ok ([], [])) := by
  constructor
  · intro h
    subst h
    simp [processRef, hpt, hurl, hext, bind, Except.bind, pure, Except.pure, isDashHbbtv]
  · intro h
    have hD : isDashHbbtv pt = false := by
      cases hD : isDashHbbtv pt
      · rfl
      · exact absurd ((isDashHbbtv_iff pt).mp hD) h
    simp [processRef, hpt, hurl, hext, bind, Except.bind, pure, Except.pure, hD]

/-- Witness for C4: both branches evaluated at a concrete `.mpd` reference. -/
theorem mpd_dispatch_only_dashhbbtv_witness :
    processRef sampleEnv false "1"
        (JVal.obj [("playerType", .str "dashhbbtv"), ("url", .str "http://x/a.mpd")]) =
      .ok (sampleEnv.dash "http://x/a.mpd" "1" (.str "dashhbbtv"),
           [DecoderCall.dash "http://x/a.mpd" "1" (.str "dashhbbtv")])
    ∧ processRef sampleEnv false "1"
        (JVal.obj [("playerType", .str "dash"), ("url", .str "http://x/a.mpd")]) =
      .ok ([], []) :=
  ⟨(mpd_dispatch_only_dashhbbtv sampleEnv false "1"
      (JVal.obj [("playerType", .str "dashhbbtv"), ("url", .str "http://x/a.mpd")])
      (.str "dashhbbtv") "http://x/a.mpd" rfl rfl rfl).1 rfl,
   (mpd_dispatch_only_dashhbbtv sampleEnv false "1"
      (JVal.obj [("playerType", .str "dash"), ("url", .str "http://x/a.mpd")])
      (.str "dash") "http://x/a.mpd" rfl rfl rfl).2
     (by intro hh; injection hh with h2; exact absurd h2 (by decide))⟩

/-- C7: `is_live` is the boolean OR of `raw.live` and `raw.simulcast`
(default false when both are absent, svt.py line 60), and the HLS delegation
for a `.m3u8` reference passes container override `mp4` and the
continuously-updating `m3u8` protocol exactly when `is_live` holds, the static
`m3u8_native` protocol otherwise (svt.py lines 61, 67-71). -/
theorem is_live_or_and_hls_mode (env : Env) (kvs : List (String × JVal))
    (vid : String) (lv sm : Option Bool)
    (hl : List.lookup "live" kvs = lv.map JVal.bool)
    (hs : List.lookup "simulcast" kvs = sm.map JVal.bool) :
    truthy (dict_get (.obj kvs) ["live", "simulcast"] (.bool false) true)
      = (lv.getD false || sm.getD false)
    ∧ (∀ (vr pt : JVal) (s : String),
        playerTypeOf vr = .ok pt → pyIndex vr "url" = .ok (.str s) →
        determine_ext s = "m3u8" →
        processRef env
            (truthy (dict_get (.obj kvs) ["live", "simulcast"] (.bool false) true))
            vid vr =
          .ok (env.hls s vid "mp4"
                 (if lv.getD false || sm.getD false then "m3u8" else "m3u8_native") pt,
               [DecoderCall.hls s vid "mp4"
                 (if lv.getD false || sm.getD false then "m3u8" else "m3u8_native") pt])) := by
  have h1 : truthy (dict_get (.obj kvs) ["live", "simulcast"] (.bool false) true)
      = (lv.getD false || sm.getD false) := by
    rcases lv with _ | b <;> rcases sm with _ | c <;>
      (try cases b) <;> (try cases c) <;>
      simp [dict_get, JVal.lookup?, hl, hs, isNull, truthy]
  refine ⟨h1, ?_⟩
  intro vr pt s hpt hurl hext
  rw [h1]
  simp [processRef, hpt, hurl, hext, bind, Except.bind, pure, Except.pure]

/-- Witness for C7: `live=false`, `simulcast=true` gives the live HLS mode at
a concrete `.m3u8` reference. -/
theorem is_live_or_and_hls_mode_witness :
    truthy (dict_get (.obj [("live", JVal.bool false), ("simulcast", JVal.bool true)])
        ["live", "simulcast"] (.bool false) true) = (false || true)
    ∧ processRef sampleEnv
        (truthy (dict_get (.obj [("live", JVal.bool false), ("simulcast", JVal.bool true)])
          ["live", "simulcast"] (.bool false) true)) "7"
        (JVal.obj [("playerType", .str "hls"), ("url", .str "http://a/x.m3u8")]) =
      .ok (sampleEnv.hls "http://a/x.m3u8" "7" "mp4" "m3u8" (.str "hls"),
           [DecoderCall.hls "http://a/x.m3u8" "7" "mp4" "m3u8" (.str "hls")]) := by
  have h := is_live_or_and_hls_mode sampleEnv
    [("live", JVal.bool false), ("simulcast", JVal.bool true)] "7"
    (some false) (some true) rfl rfl
  exact ⟨h.1, h.2 (JVal.obj [("playerType", .str "hls"), ("url", .str "http://a/x.m3u8")])
    (.str "hls") "http://a/x.m3u8" rfl rfl rfl⟩


theorem playerTypeOf_obj_ok (l : List (String × JVal)) :
    ∃ pt, playerTypeOf (.obj l) = .ok pt := by
  simp only [playerTypeOf, pyGet, bind, Except.bind]
  split <;> exact ⟨_, rfl⟩

theorem processRef_ok_of_strUrl (env : Env) (il : Bool) (vid : String) (vr : JVal)
    (h : refHasStrUrl vr = true) : ∃ p, processRef env il vid vr = .ok p := by
  match vr, h with
  | .obj k, h =>
    obtain ⟨pt, hpt⟩ := playerTypeOf_obj_ok k
    simp only [refHasStrUrl] at h
    split at h
    case _ s heq =>
      simp only [processRef, hpt, bind, Except.bind, pyIndex, heq, pure, Except.pure]
      repeat' split
      all_goals exact ⟨_, rfl⟩
    case _ => exact absurd h (by simp)

theorem processRefs_error_mid (env : Env) (il : Bool) (vid : String)
    (pre rest : List JVal) (bad : JVal) (e : ExtErr)
    (hpre : pre.all refHasStrUrl = true) (hbad : processRef env il vid bad = .error e) :
    processRefs env il vid (pre ++ bad :: rest) = .error e := by
  induction pre with
  | nil => simp [processRefs, hbad, bind, Except.bind]
  | cons x xs ih =>
    simp only [List.all_cons, Bool.and_eq_true] at hpre
    obtain ⟨p, hp⟩ := processRef_ok_of_strUrl env il vid x hpre.1
    simp [processRefs, hp, bind, Except.bind, ih hpre.2]

/-- C9: unstated precondition of `_extract_video` — a `video_info` dict that
lacks the `videoReferences` key, or whose reference list contains an entry
without a `url` key, makes `_extract_video` raise a hard `KeyError`
(svt.py lines 63-65).  The `video_info` dict is otherwise arbitrary, so the
error is raised regardless of any geo-block flag or subtitle content: the
geo-block check and subtitle processing are never reached. -/
theorem missing_reference_keys_raise (env : Env) (kvs : List (String × JVal))
    (vid : String) :
    (List.lookup "videoReferences" kvs = none →
      extract_video env (.obj kvs) vid = .error (.keyError "videoReferences"))
    ∧ (∀ (pre : List JVal) (bkvs : List (String × JVal)) (rest : List JVal),
        List.lookup "videoReferences" kvs = some (.arr (pre ++ JVal.obj bkvs :: rest)) →
        pre.all refHasStrUrl = true →
        List.lookup "url" bkvs = none →
        extract_video env (.obj kvs) vid = .error (.keyError "url")) := by
  constructor
  · intro h
    simp [extract_video, pyIndex, h, bind, Except.bind]
  · intro pre bkvs rest href hpre hurl
    obtain ⟨pt, hpt⟩ := playerTypeOf_obj_ok bkvs
    have hbad : processRef env
        (truthy (dict_get (.obj kvs) ["live", "simulcast"] (.bool false) true))
        vid (.obj bkvs) = .error (.keyError "url") := by
      simp [processRef, hpt, pyIndex, hurl, bind, Except.bind]
    have hloop := processRefs_error_mid env
      (truthy (dict_get (.obj kvs) ["live", "simulcast"] (.bool false) true))
      vid pre rest (.obj bkvs) (.keyError "url") hpre hbad
    simp [extract_video, pyIndex, href, pyIterList, bind, Except.bind, hloop]

/-- Witness for C9: both missing-key shapes at concrete inputs, with a
geo-block flag set to show the geo check is pre-empted. -/
theorem missing_reference_keys_raise_witness :
    extract_video sampleEnv
        (.obj [("rights", .obj [("geoBlockedSweden", .bool true)])]) "9" =
      .error (.keyError "videoReferences")
    ∧ extract_video sampleEnv
        (.obj [("videoReferences",
                 .arr [.obj [("url", .str "http://a/b.mp4")],
                       .obj [("playerType", .str "x")]]),
               ("rights", .obj [("geoBlockedSweden", .bool true)])]) "9" =
      .error (.keyError "url") :=
  ⟨(missing_reference_keys_raise sampleEnv
      [("rights", .obj [("geoBlockedSweden", .bool true)])] "9").1 rfl,
   (missing_reference_keys_raise sampleEnv
      [("videoReferences",
         .arr [.obj [("url", .str "http://a/b.mp4")], .obj [("playerType", .str "x")]]),
       ("rights", .obj [("geoBlockedSweden", .bool true)])] "9").2
     [.obj [("url", .str "http://a/b.mp4")]] [("playerType", .str "x")] [] rfl rfl rfl⟩

/-- C3: the normalized `age_limit` comes from the first present of
`inappropriateForChildren` then `blockedForChildren`, read distinguishing
false from absent: true gives 18, false gives 0, both absent gives null
(svt.py lines 39-44). -/
theorem age_limit_normalization (env : Env) (kvs d : List (String × JVal))
    (hd : derive_fields_obj env kvs = .ok d) (a b : Option Bool)
    (ha : List.lookup "inappropriateForChildren" kvs = a.map JVal.bool)
    (hb : List.lookup "blockedForChildren" kvs = b.map JVal.bool) :
    List.lookup "age_limit" d =
      some (match a, b with
            | some true, _ => JVal.num 18
            | some false, _ => JVal.num 0
            | none, some true => JVal.num 18
            | none, some false => JVal.num 0
            | none, none => JVal.null) := by
  cases ht : thumbnailOf kvs with
  | error e => simp [derive_fields_obj, ht] at hd
  | ok t =>
    simp only [derive_fields_obj, ht, Except.ok.injEq] at hd
    subst hd
    rcases a with _ | a' <;> rcases b with _ | b' <;>
      (try cases a') <;> (try cases b') <;>
      simp [List.lookup, dict_get, JVal.lookup?, ha, hb, isNull, truthy]

/-- Witness for C3: all five outcome shapes at concrete inputs. -/
theorem age_limit_normalization_witness :
    List.lookup "age_limit"
        [("title", JVal.null), ("thumbnail", JVal.null), ("description", JVal.null),
         ("timestamp", JVal.null), ("duration", JVal.null), ("age_limit", JVal.num 18),
         ("series", JVal.null), ("season_number", JVal.null), ("episode", JVal.null),
         ("episode_number", JVal.null)] = some (JVal.num 18)
    ∧ List.lookup "age_limit"
        [("title", JVal.null), ("thumbnail", JVal.null), ("description", JVal.null),
         ("timestamp", JVal.null), ("duration", JVal.null), ("age_limit", JVal.num 0),
         ("series", JVal.null), ("season_number", JVal.null), ("episode", JVal.null),
         ("episode_number", JVal.null)] = some (JVal.num 0)
    ∧ List.lookup "age_limit"
        [("title", JVal.null), ("thumbnail", JVal.null), ("description", JVal.null),
         ("timestamp", JVal.null), ("duration", JVal.null), ("age_limit", JVal.null),
         ("series", JVal.null), ("season_number", JVal.null), ("episode", JVal.null),
         ("episode_number", JVal.null)] = some JVal.null :=
  ⟨age_limit_normalization sampleEnv [("inappropriateForChildren", .bool true)] _ rfl
     (some true) none rfl rfl,
   age_limit_normalization sampleEnv
     [("inappropriateForChildren", .bool false), ("blockedForChildren", .bool true)] _ rfl
     (some false) (some true) rfl rfl,
   age_limit_normalization sampleEnv [] _ rfl none none rfl rfl⟩

theorem processRef_direct (env : Env) (il : Bool) (vid : String) (vr : JVal)
    (h : directRefWF vr = true) :
    processRef env il vid vr = .ok ([directFormat vr], []) := by
  match vr, h with
  | .obj k, h =>
    obtain ⟨pt, hpt⟩ := playerTypeOf_obj_ok k
    simp only [directRefWF] at h
    split at h
    case _ s heq =>
      simp only [Bool.and_eq_true, Bool.not_eq_true'] at h
      obtain ⟨⟨h1, h2⟩, h3⟩ := h
      have h1' : determine_ext s ≠ "m3u8" := by simpa using h1
      have h2' : determine_ext s ≠ "f4m" := by simpa using h2
      have h3' : determine_ext s ≠ "mpd" := by simpa using h3
      simp [processRef, hpt, pyIndex, heq, bind, Except.bind, h1', h2', h3',
            pure, Except.pure, directFormat, Except.toOption]
    case _ => exact absurd h (by simp)

/-- C6: when every videoReference URL has an extension other than `m3u8`,
`f4m` and `mpd`, the reference loop of `_extract_video` produces exactly one
direct progressive rendition per reference (in order, each carrying the
reference's player-type tag as `format_id` and the reference URL), invokes no
manifest decoder, and the final ranked rendition list has exactly one entry
per reference (svt.py lines 63-84, 89). -/
theorem direct_progressive_renditions (env : Env) (il : Bool) (vid : String)
    (refs : List JVal) (h : refs.all directRefWF = true) :
    processRefs env il vid refs = .ok (refs.map directFormat, [])
    ∧ (refs.map directFormat).length = refs.length
    ∧ (env.sortFormats (refs.map directFormat)).length = refs.length := by
  refine ⟨?_, List.length_map refs directFormat, ?_⟩
  · induction refs with
    | nil => rfl
    | cons vr rest ih =>
      simp only [List.all_cons, Bool.and_eq_true] at h
      simp [processRefs, processRef_direct env il vid vr h.1, ih h.2,
            bind, Except.bind, pure, Except.pure]
  · rw [(env.sortFormats_perm (refs.map directFormat)).length_eq,
        List.length_map refs directFormat]

/-- Witness for C6 at two concrete progressive references. -/
theorem direct_progressive_renditions_witness :
    processRefs sampleEnv false "5"
        [JVal.obj [("playerType", .str "flash"), ("url", .str "http://a/b.mp4")],
         JVal.obj [("format", .str "mobile"), ("url", .str "http://a/c.3gp")]] =
      .ok ([JVal.obj [("format_id", .str "flash"), ("url", .str "http://a/b.mp4")],
            JVal.obj [("format_id", .str "mobile"), ("url", .str "http://a/c.3gp")]], [])
    ∧ ([JVal.obj [("playerType", .str "flash"), ("url", .str "http://a/b.mp4")],
        JVal.obj [("format", .str "mobile"), ("url", .str "http://a/c.3gp")]].map
          directFormat).length = 2 := by
  have h := direct_progressive_renditions sampleEnv false "5"
    [JVal.obj [("playerType", .str "flash"), ("url", .str "http://a/b.mp4")],
     JVal.obj [("format", .str "mobile"), ("url", .str "http://a/c.3gp")]] (by rfl)
  exact ⟨h.1, h.2.1⟩

theorem pyGet_error_eq (v : JVal) (k : String) (d : JVal) (e : ExtErr)
    (h : pyGet v k d = .error e) : e = .attributeError := by
  cases v <;> simp [pyGet] at h <;> exact h.symm

theorem thumbnailOf_error_eq (kvs : List (String × JVal)) (e : ExtErr)
    (h : thumbnailOf kvs = .error e) : e = .attributeError := by
  simp only [thumbnailOf] at h
  split at h
  · split at h <;> simp_all
  · simp_all

theorem derived_fields_error_eq (env : Env) (vi : JVal) (e : ExtErr)
    (h : derived_fields env vi = .error e) : e = .attributeError := by
  cases vi <;> simp only [derived_fields] at h
  case obj kvs =>
    simp only [derive_fields_obj] at h
    split at h
    case _ e1 heq =>
      rw [(Except.error.inj h : e1 = e)] at heq
      exact thumbnailOf_error_eq kvs e heq
    case _ => simp at h
  all_goals exact (Except.error.inj h).symm

theorem buildSubtitlesGo_error_shape (xs : List JVal) :
    ∀ (acc : List (JVal × List JVal)) (e : ExtErr),
      buildSubtitlesGo acc xs = .error e →
      e = .attributeError ∨ e = .typeError := by
  induction xs with
  | nil => intro acc e h; simp [buildSubtitlesGo] at h
  | cons sr rest ih =>
    intro acc e h
    cases hu : pyGet sr "url" .null with
    | error eu =>
      simp only [buildSubtitlesGo, bind, Except.bind, hu] at h
      rw [← (Except.error.inj h : eu = e)]
      exact Or.inl (pyGet_error_eq _ _ _ _ hu)
    | ok u =>
      cases hl : pyGet sr "language" (.str "sv") with
      | error el =>
        simp only [buildSubtitlesGo, bind, Except.bind, hu, hl] at h
        rw [← (Except.error.inj h : el = e)]
        exact Or.inl (pyGet_error_eq _ _ _ _ hl)
      | ok lang =>
        simp only [buildSubtitlesGo, bind, Except.bind, hu, hl] at h
        split at h
        · split at h
          all_goals first
            | exact ih _ _ h
            | (split at h <;> exact ih _ _ h)
            | exact Or.inr (Except.error.inj h).symm
        · exact ih _ _ h

theorem resolve_subtitles_error_shape (vi : JVal) (e : ExtErr)
    (h : resolve_subtitles vi = .error e) : e = .attributeError ∨ e = .typeError := by
  simp only [resolve_subtitles] at h
  split at h
  · exact buildSubtitlesGo_error_shape _ [] e h
  · simp at h

theorem extract_metadata_error_eq (env : Env) (base : List (String × JVal))
    (vi : JVal) (e : ExtErr) (h : extract_metadata env base vi = .error e) :
    e = .attributeError := by
  simp only [extract_metadata] at h
  split at h
  · simp at h
  case _ e1 heq =>
    rw [(Except.error.inj h : e1 = e)] at heq
    exact derived_fields_error_eq env vi e heq

theorem finishVideo_not_geo (env : Env) (vi : JVal) (vid : String)
    (fc : List JVal × List DecoderCall) (m : String) (c : List String) :
    finishVideo env vi vid fc ≠ .error (.geoRestricted m c) := by
  intro h
  simp only [finishVideo, bind, Except.bind] at h
  cases hrs : resolve_subtitles vi with
  | error e =>
    rw [hrs] at h
    rcases resolve_subtitles_error_shape vi e hrs with he | he <;>
      rw [he] at h <;> exact ExtErr.noConfusion (Except.error.inj h)
  | ok subs =>
    rw [hrs] at h
    simp only [] at h
    split at h
    · simp [pure, Except.pure] at h
    case _ e1 heq =>
      have he := extract_metadata_error_eq _ _ _ _ heq
      rw [he] at h
      exact ExtErr.noConfusion (Except.error.inj h)

/-- C2: `_extract_video` raises `GeoRestricted` naming Sweden exactly when the
reference loop produced zero renditions and `rights.geoBlockedSweden` is
truthy; with at least one rendition the geo error is never raised, whatever
the flag (svt.py lines 85-88). -/
theorem geo_restricted_iff (env : Env) (kvs : List (String × JVal)) (vid : String)
    (refs fs : List JVal) (cs : List DecoderCall) (gb : Bool)
    (href : List.lookup "videoReferences" kvs = some (.arr refs))
    (hproc : processRefs env
        (truthy (dict_get (.obj kvs) ["live", "simulcast"] (.bool false) true))
        vid refs = .ok (fs, cs))
    (hgeo : geoCheck (.obj kvs) = .ok gb) :
    (extract_video env (.obj kvs) vid =
        .error (.geoRestricted "This video is only available in Sweden" ["SE"]))
      ↔ (fs = [] ∧ gb = true) := by
  simp only [extract_video, pyIndex, href, pyIterList, bind, Except.bind, hproc, hgeo]
  cases fs with
  | cons f fs2 =>
    simp only [List.isEmpty_cons, Bool.false_eq_true, if_false]
    exact iff_of_false (finishVideo_not_geo env (.obj kvs) vid (f :: fs2, cs) _ _) (by simp)
  | nil =>
    cases gb with
    | true => simp
    | false =>
      simp only [List.isEmpty_nil, if_true, Bool.false_eq_true, if_false]
      exact iff_of_false (finishVideo_not_geo env (.obj kvs) vid ([], cs) _ _) (by simp)

/-- Witness for C2: zero renditions with the flag set raises the Sweden geo
error; one rendition with the same flag does not. -/
theorem geo_restricted_iff_witness :
    extract_video sampleEnv
        (.obj [("videoReferences", .arr []),
               ("rights", .obj [("geoBlockedSweden", .bool true)])]) "2" =
      .error (.geoRestricted "This video is only available in Sweden" ["SE"])
    ∧ ¬(extract_video sampleEnv
        (.obj [("videoReferences", .arr [.obj [("url", .str "http://a/b.mp4")]]),
               ("rights", .obj [("geoBlockedSweden", .bool true)])]) "2" =
      .error (.geoRestricted "This video is only available in Sweden" ["SE"])) :=
  ⟨(geo_restricted_iff sampleEnv
      [("videoReferences", .arr []),
       ("rights", .obj [("geoBlockedSweden", .bool true)])] "2"
      [] [] [] true rfl rfl rfl).mpr ⟨rfl, rfl⟩,
   fun h => by
     have hx := (geo_restricted_iff sampleEnv
       [("videoReferences", .arr [.obj [("url", .str "http://a/b.mp4")]]),
        ("rights", .obj [("geoBlockedSweden", .bool true)])] "2"
       [.obj [("url", .str "http://a/b.mp4")]]
       [.obj [("format_id", JVal.null), ("url", .str "http://a/b.mp4")]] [] true
       rfl rfl rfl).mp h
     exact absurd hx.1 (by simp)⟩

mutual

theorem JVal.beq_iff : ∀ a b : JVal, JVal.beq a b = true ↔ a = b
  | .null, .null => by simp [JVal.beq]
  | .null, .bool _ | .null, .num _ | .null, .str _ | .null, .arr _ | .null, .obj _ => by
    simp [JVal.beq]
  | .bool _, .null | .bool _, .num _ | .bool _, .str _ | .bool _, .arr _ | .bool _, .obj _ => by
    simp [JVal.beq]
  | .num _, .null | .num _, .bool _ | .num _, .str _ | .num _, .arr _ | .num _, .obj _ => by
    simp [JVal.beq]
  | .str _, .null | .str _, .bool _ | .str _, .num _ | .str _, .arr _ | .str _, .obj _ => by
    simp [JVal.beq]
  | .arr _, .null | .arr _, .bool _ | .arr _, .num _ | .arr _, .str _ | .arr _, .obj _ => by
    simp [JVal.beq]
  | .obj _, .null | .obj _, .bool _ | .obj _, .num _ | .obj _, .str _ | .obj _, .arr _ => by
    simp [JVal.beq]
  | .bool a, .bool b => by simp [JVal.beq]
  | .num a, .num b => by simp [JVal.beq]
  | .str a, .str b => by simp [JVal.beq]
  | .arr x, .arr y => by simp [JVal.beq, JVal.beqList_iff x y]
  | .obj x, .obj y => by simp [JVal.beq, JVal.beqKVs_iff x y]

theorem JVal.beqList_iff : ∀ x y : List JVal, JVal.beqList x y = true ↔ x = y
  | [], [] => by simp [JVal.beqList]
  | [], _ :: _ => by simp [JVal.beqList]
  | _ :: _, [] => by simp [JVal.beqList]
  | a :: x, b :: y => by
    simp [JVal.beqList, JVal.beq_iff a b, JVal.beqList_iff x y]

theorem JVal.beqKVs_iff : ∀ x y : List (String × JVal), JVal.beqKVs x y = true ↔ x = y
  | [], [] => by simp [JVal.beqKVs]
  | [], _ :: _ => by simp [JVal.beqKVs]
  | _ :: _, [] => by simp [JVal.beqKVs]
  | (k1, v1) :: x, (k2, v2) :: y => by
    simp [JVal.beqKVs, JVal.beq_iff v1 v2, JVal.beqKVs_iff x y, Prod.ext_iff, and_assoc]

end


theorem assocFind_subGroupAdd (m : List (JVal × List JVal)) (k v L : JVal) :
    assocFind (subGroupAdd m k v) L =
      if JVal.beq k L then assocFind m L ++ [v] else assocFind m L := by
  induction m with
  | nil => simp [subGroupAdd, assocFind]
  | cons p rest ih =>
    obtain ⟨k', vs⟩ := p
    by_cases hk : JVal.beq k' k = true
    · have hkeq : k' = k := (JVal.beq_iff k' k).mp hk
      subst hkeq
      by_cases hL : JVal.beq k' L = true
      · simp [subGroupAdd, assocFind, hk, hL]
      · simp [subGroupAdd, assocFind, hk, hL]
    · by_cases hL : JVal.beq k' L = true
      · have hLe : k' = L := (JVal.beq_iff k' L).mp hL
        subst hLe
        have hkL : JVal.beq k k' = false := by
          rw [Bool.eq_false_iff]
          intro hc
          rw [(JVal.beq_iff k k').mp hc] at hk
          exact hk ((JVal.beq_iff k' k').mpr rfl)
        simp [subGroupAdd, assocFind, hk, hL, hkL]
      · simp [subGroupAdd, assocFind, hk, hL, ih]

theorem buildSubtitlesGo_group (xs : List JVal) (hwf : xs.all subWF = true) :
    ∀ acc, ∃ m, buildSubtitlesGo acc xs = .ok m ∧
      ∀ L, assocFind m L = assocFind acc L ++ specSubtitleGroup xs L := by
  induction xs with
  | nil =>
    intro acc
    exact ⟨acc, rfl, fun L => by simp [specSubtitleGroup]⟩
  | cons sr rest ih =>
    simp only [List.all_cons, Bool.and_eq_true] at hwf
    intro acc
    match sr, hwf.1 with
    | .obj kvs, h1 =>
      simp only [subWF] at h1
      cases hu0 : List.lookup "url" kvs with
      | none =>
        obtain ⟨m, hm, hfind⟩ := ih hwf.2 acc
        refine ⟨m, ?_, fun L => ?_⟩
        · simpa [buildSubtitlesGo, bind, Except.bind, pyGet, hu0, truthy] using hm
        · rw [hfind L]
          simp [specSubtitleGroup, hu0, truthy]
      | some u =>
        rw [hu0] at h1
        by_cases htr : truthy u = true
        · have hstr : ∃ s, u = .str s := by
            cases u <;> simp_all [truthy]
          obtain ⟨s, rfl⟩ := hstr
          by_cases hext : determine_ext s = "m3u8"
          · obtain ⟨m, hm, hfind⟩ := ih hwf.2 acc
            refine ⟨m, ?_, fun L => ?_⟩
            · simpa [buildSubtitlesGo, bind, Except.bind, pyGet, hu0, htr, hext] using hm
            · rw [hfind L]
              simp [specSubtitleGroup, hu0, htr, hext]
          · obtain ⟨m, hm, hfind⟩ := ih hwf.2
              (subGroupAdd acc ((List.lookup "language" kvs).getD (.str "sv"))
                (JVal.obj [("url", .str s)]))
            refine ⟨m, ?_, fun L => ?_⟩
            · simpa [buildSubtitlesGo, bind, Except.bind, pyGet, hu0, htr, hext] using hm
            · rw [hfind L, assocFind_subGroupAdd]
              by_cases hL : JVal.beq ((List.lookup "language" kvs).getD (.str "sv")) L = true
              · simp [specSubtitleGroup, hu0, htr, hext, hL]
              · simp [specSubtitleGroup, hu0, htr, hext, hL]
        · obtain ⟨m, hm, hfind⟩ := ih hwf.2 acc
          refine ⟨m, ?_, fun L => ?_⟩
          · simpa [buildSubtitlesGo, bind, Except.bind, pyGet, hu0, htr] using hm
          · rw [hfind L]
            simp [specSubtitleGroup, hu0, htr]

/-- C5: the subtitle source is the first present of `subtitles` then
`subtitleReferences` and is processed only when it is literally a list — any
other shape yields an empty subtitle map without error; for list sources
(whose entries are dicts with string-or-absent URLs) each entry with a truthy
URL is grouped under its language, the language defaulting to `sv` when the
key is missing, entries whose URL extension is `m3u8` are dropped entirely,
and encounter order is preserved within each language
(svt.py lines 91-102; `specSubtitleGroup` restates the spec's wording). -/
theorem subtitle_extraction_semantics (vi : JVal) (xs : List JVal)
    (hwf : xs.all subWF = true) :
    ((∀ ys, subtitle_source vi ≠ .arr ys) → resolve_subtitles vi = .ok [])
    ∧ (subtitle_source vi = .arr xs →
        ∃ m, resolve_subtitles vi = .ok m ∧
          ∀ L, assocFind m L = specSubtitleGroup xs L) := by
  refine ⟨fun h => ?_, fun heq => ?_⟩
  · unfold resolve_subtitles
    split
    · rename_i ys heq
      exact absurd heq (h ys)
    · rfl
  · obtain ⟨m, hm, hfind⟩ := buildSubtitlesGo_group xs hwf []
    refine ⟨m, ?_, fun L => ?_⟩
    · simp only [resolve_subtitles, heq]
      exact hm
    · simp [hfind L, assocFind]

/-- Witness for C5: a missing-language entry lands under `sv`, an `.m3u8`
entry is dropped, and a mapping-shaped source yields an empty map. -/
theorem subtitle_extraction_semantics_witness :
    (∃ m, resolve_subtitles
        (.obj [("subtitleReferences",
                .arr [.obj [("url", .str "http://a/s.vtt")],
                      .obj [("url", .str "http://a/s.m3u8"), ("language", .str "en")],
                      .obj [("url", .str "http://a/t.srt"), ("language", .str "sv")]])]) =
        .ok m
      ∧ ∀ L, assocFind m L = specSubtitleGroup
          [.obj [("url", .str "http://a/s.vtt")],
           .obj [("url", .str "http://a/s.m3u8"), ("language", .str "en")],
           .obj [("url", .str "http://a/t.srt"), ("language", .str "sv")]] L)
    ∧ resolve_subtitles (.obj [("subtitles", .obj [("sv", .str "x")])]) = .ok [] :=
  ⟨(subtitle_extraction_semantics
      (.obj [("subtitleReferences",
              .arr [.obj [("url", .str "http://a/s.vtt")],
                    .obj [("url", .str "http://a/s.m3u8"), ("language", .str "en")],
                    .obj [("url", .str "http://a/t.srt"), ("language", .str "sv")]])])
      _ (by decide)).2 rfl,
   (subtitle_extraction_semantics (.obj [("subtitles", .obj [("sv", .str "x")])])
      [] (by decide)).1
     (fun ys hy => by simp [subtitle_source, dict_get, JVal.lookup?, isNull, truthy] at hy)⟩

theorem lookup_none_of_keys (k : String) (l : List (String × JVal))
    (h : ∀ p ∈ l, p.1 ≠ k) : List.lookup k l = none := by
  induction l with
  | nil => rfl
  | cons p rest ih =>
    obtain ⟨k1, v1⟩ := p
    have hk1 : k1 ≠ k := h (k1, v1) (List.mem_cons_self _ _)
    simp only [List.lookup, beq_eq_false_iff_ne.mpr (Ne.symm hk1)]
    exact ih (fun q hq => h q (List.mem_cons_of_mem _ hq))

theorem lookup_append_j (l1 l2 : List (String × JVal)) (k : String) :
    List.lookup k (l1 ++ l2) =
      match List.lookup k l1 with
      | some v => some v
      | none => List.lookup k l2 := by
  induction l1 with
  | nil => simp [List.lookup]
  | cons p rest ih =>
    obtain ⟨k1, v1⟩ := p
    cases h1 : (k == k1) <;> simp [List.lookup, h1, ih]

theorem lookup_merge_mapped (base d : List (String × JVal)) (k : String) :
    List.lookup k (base.map (fun kv =>
        match List.lookup kv.1 d with
        | some v => if truthy v then (kv.1, v) else kv
        | none => kv)) =
      (List.lookup k base).map (fun bv =>
        match List.lookup k d with
        | some v => if truthy v then v else bv
        | none => bv) := by
  induction base with
  | nil => rfl
  | cons p rest ih =>
    obtain ⟨k1, v1⟩ := p
    cases h1 : (k == k1)
    · cases hd1 : List.lookup k1 d with
      | none => simp [List.lookup, hd1, h1, ih]
      | some v =>
        cases htv : truthy v <;> simp [List.lookup, hd1, h1, htv, ih]
    · have hk : k1 = k := by
        have h2 : k = k1 := by simpa using h1
        exact h2.symm
      subst hk
      cases hd1 : List.lookup k1 d with
      | none => simp [List.lookup, hd1]
      | some v => cases htv : truthy v <;> simp [List.lookup, hd1, htv]

theorem lookup_merge_filtered (base d : List (String × JVal)) (k : String)
    (hnd : (d.map Prod.fst).Nodup) (hb : List.lookup k base = none) :
    List.lookup k (d.filter (fun kv =>
        (List.lookup kv.1 base).isNone && !isNull kv.2)) =
      match List.lookup k d with
      | some v => if isNull v then none else some v
      | none => none := by
  induction d with
  | nil => rfl
  | cons p rest ih =>
    obtain ⟨k1, v1⟩ := p
    simp only [List.map_cons, List.nodup_cons] at hnd
    cases h1 : (k == k1)
    · cases hp : ((List.lookup k1 base).isNone && !isNull v1) <;>
        simp [List.filter_cons, hp, List.lookup, h1, ih hnd.2]
    · have hk : k1 = k := by
        have h2 : k = k1 := by simpa using h1
        exact h2.symm
      subst hk
      have hrest : List.lookup k1 (rest.filter (fun kv =>
          (List.lookup kv.1 base).isNone && !isNull kv.2)) = none := by
        refine lookup_none_of_keys _ _ (fun q hq => ?_)
        intro hcon
        exact hnd.1 (hcon ▸ List.mem_map_of_mem Prod.fst (List.mem_of_mem_filter hq))
      cases hn : isNull v1
      · simp [List.filter_cons, hb, hn, List.lookup]
      · simp [List.filter_cons, hb, hn, List.lookup, hrest]

theorem lookup_merge_dicts (base d : List (String × JVal)) (k : String)
    (hnd : (d.map Prod.fst).Nodup) :
    List.lookup k (merge_dicts base d) =
      match List.lookup k base, List.lookup k d with
      | some bv, some v => some (if truthy v then v else bv)
      | some bv, none => some bv
      | none, some v => if isNull v then none else some v
      | none, none => none := by
  rw [merge_dicts, lookup_append_j, lookup_merge_mapped]
  cases hbk : List.lookup k base with
  | some bv =>
    cases hdk : List.lookup k d with
    | some v => simp
    | none => simp
  | none =>
    simp only [Option.map_none']
    rw [lookup_merge_filtered base d k hnd hbk]
    cases List.lookup k d <;> rfl

theorem derived_fields_keys (env : Env) (vi : JVal) (d : List (String × JVal))
    (hd : derived_fields env vi = .ok d) :
    d.map Prod.fst = ["title", "thumbnail", "description", "timestamp", "duration",
                      "age_limit", "series", "season_number", "episode",
                      "episode_number"] := by
  cases vi <;> simp only [derived_fields] at hd
  case obj kvs =>
    simp only [derive_fields_obj] at hd
    split at hd
    · simp at hd
    · rw [← Except.ok.inj hd]
      rfl
  all_goals simp at hd

theorem truthy_not_null (v : JVal) (h : truthy v = true) : isNull v = false := by
  cases v <;> simp_all [truthy, isNull]

/-- C1: in `_extract_metadata(base, raw)` every raw-derived field that is
present and non-empty overwrites the corresponding field of `base`, fields not
derivable from `raw` are left untouched in `base`, and step 5 of
`SVTPlayIE._real_extract` is exactly this merge applied with the item so far
as `base` and the page's `videoPage.video` object as `raw`, so the
page-derived fields take precedence for every overlapping non-empty field
(svt.py lines 46-57 and 271-274). -/
theorem metadata_merge_precedence (env : Env) (base : List (String × JVal))
    (vi : JVal) (d : List (String × JVal)) (hd : derived_fields env vi = .ok d) :
    extract_metadata env base vi = .ok (merge_dicts base d)
    ∧ (∀ k v, List.lookup k d = some v → truthy v = true →
        List.lookup k (merge_dicts base d) = some v)
    ∧ (∀ k, List.lookup k d = none →
        List.lookup k (merge_dicts base d) = List.lookup k base)
    ∧ (∀ (data : JVal) (info : List (String × JVal)) (vd : JVal),
        truthy data = true → videoPageVideoOf data = some vd → truthy vd = true →
        step5 env data info = extract_metadata env info vd) := by
  have hnd : (d.map Prod.fst).Nodup := by
    rw [derived_fields_keys env vi d hd]
    decide
  refine ⟨by simp [extract_metadata, hd], fun k v hk htv => ?_, fun k hk => ?_,
          fun data info vd h1 h2 h3 => ?_⟩
  · rw [lookup_merge_dicts base d k hnd, hk]
    cases hbk : List.lookup k base with
    | some bv => simp [htv]
    | none => simp [truthy_not_null v htv]
  · rw [lookup_merge_dicts base d k hnd, hk]
    cases hbk : List.lookup k base <;> rfl
  · simp [step5, h1, h2, h3]

/-- Witness for C1: a non-empty page title overwrites the base title, an
underivable key is untouched, and step 5 reduces to the merge. -/
theorem metadata_merge_precedence_witness :
    List.lookup "title"
        (merge_dicts [("title", JVal.str "api"), ("x", JVal.num 7)]
          [("title", JVal.str "page"), ("thumbnail", JVal.null),
           ("description", JVal.null), ("timestamp", JVal.null),
           ("duration", JVal.null), ("age_limit", JVal.null),
           ("series", JVal.null), ("season_number", JVal.null),
           ("episode", JVal.null), ("episode_number", JVal.null)]) =
      some (JVal.str "page")
    ∧ List.lookup "x"
        (merge_dicts [("title", JVal.str "api"), ("x", JVal.num 7)]
          [("title", JVal.str "page"), ("thumbnail", JVal.null),
           ("description", JVal.null), ("timestamp", JVal.null),
           ("duration", JVal.null), ("age_limit", JVal.null),
           ("series", JVal.null), ("season_number", JVal.null),
           ("episode", JVal.null), ("episode_number", JVal.null)]) =
      List.lookup "x" [("title", JVal.str "api"), ("x", JVal.num 7)]
    ∧ step5 sampleEnv
        (.obj [("videoPage", .obj [("video", .obj [("title", JVal.str "page")])])])
        [("title", JVal.str "api"), ("x", JVal.num 7)] =
      extract_metadata sampleEnv [("title", JVal.str "api"), ("x", JVal.num 7)]
        (.obj [("title", JVal.str "page")]) :=
  ⟨(metadata_merge_precedence sampleEnv [("title", JVal.str "api"), ("x", JVal.num 7)]
      (.obj [("title", JVal.str "page")]) _ rfl).2.1 "title" (JVal.str "page") rfl rfl,
   (metadata_merge_precedence sampleEnv [("title", JVal.str "api"), ("x", JVal.num 7)]
      (.obj [("title", JVal.str "page")]) _ rfl).2.2.1 "x" rfl,
   (metadata_merge_precedence sampleEnv [("title", JVal.str "api"), ("x", JVal.num 7)]
      (.obj [("title", JVal.str "page")]) _ rfl).2.2.2
     (.obj [("videoPage", .obj [("video", .obj [("title", JVal.str "page")])])])
     [("title", JVal.str "api"), ("x", JVal.num 7)]
     (.obj [("title", JVal.str "page")]) rfl rfl rfl⟩

theorem process_content_bad_error (c : JVal) (h : badQualMissing c = true) :
    ∃ k, process_content c = .error (.keyError k) ∧ (k = "image" ∨ k = "svtId") := by
  simp only [badQualMissing, Bool.and_eq_true] at h
  obtain ⟨hq, hmiss⟩ := h
  match c, hmiss with
  | .obj kvs, hmiss =>
    simp only [qualifiesVideo, JVal.lookup?] at hq
    have hq2 : ∃ s, List.lookup "_type" kvs = some (.str s)
        ∧ (s == "VIDEOCLIP" || s == "VIDEOEPISODE") = true := by
      split at hq
      case _ s heq => exact ⟨s, heq, hq⟩
      case _ => exact absurd hq (by simp)
    obtain ⟨s, hts, hsq⟩ := hq2
    have hmiss2 : (match List.lookup "image" kvs with
        | none => true
        | some (.obj ikvs) => (List.lookup "svtId" ikvs).isNone
        | some _ => false) = true := hmiss
    cases himg : List.lookup "image" kvs with
    | none =>
      refine ⟨"image", ?_, Or.inl rfl⟩
      simp [process_content, pyGet, pyIndex, hts, hsq, himg, bind, Except.bind]
    | some img =>
      rw [himg] at hmiss2
      match img, hmiss2 with
      | .obj ikvs, hmiss2 =>
        simp only [Option.isNone_iff_eq_none] at hmiss2
        refine ⟨"svtId", ?_, Or.inr rfl⟩
        simp [process_content, pyGet, pyIndex, hts, hsq, himg, hmiss2, bind, Except.bind]

theorem contentOk_exists (c : JVal) (h : contentOk c = true) :
    ∃ r, process_content c = .ok r := by
  simp only [contentOk] at h
  cases hc : process_content c with
  | ok r => exact ⟨r, rfl⟩
  | error e => rw [hc] at h; simp [Except.isOk, Except.toBool] at h

theorem processMedia_error_mid (pre rest : List JVal) (bad : JVal) (e : ExtErr)
    (hpre : pre.all contentOk = true) (hbad : process_content bad = .error e) :
    processMedia (pre ++ bad :: rest) = .error e := by
  induction pre with
  | nil => simp [processMedia, hbad, bind, Except.bind]
  | cons x xs ih =>
    simp only [List.all_cons, Bool.and_eq_true] at hpre
    obtain ⟨r, hr⟩ := contentOk_exists x hpre.1
    simp [processMedia, hr, bind, Except.bind, ih hpre.2]

theorem processMedia_ok_of_all (ml : List JVal) (h : ml.all contentOk = true) :
    ∃ r, processMedia ml = .ok r := by
  induction ml with
  | nil => exact ⟨[], rfl⟩
  | cons x xs ih =>
    simp only [List.all_cons, Bool.and_eq_true] at h
    obtain ⟨r, hr⟩ := contentOk_exists x h.1
    obtain ⟨rs, hrs⟩ := ih h.2
    exact ⟨r ++ rs, by simp [processMedia, hr, hrs, bind, Except.bind, pure, Except.pure]⟩

theorem sbItemOk_exists (x : JVal) (h : sbItemOk x = true) :
    ∃ c0 r, pyGet x "content" JVal.null = .ok c0
      ∧ process_content (if truthy c0 then c0 else JVal.obj []) = .ok r := by
  simp only [sbItemOk] at h
  cases hg : pyGet x "content" JVal.null with
  | error e => rw [hg] at h; simp [bind, Except.bind, Except.isOk, Except.toBool] at h
  | ok c0 =>
    rw [hg] at h
    cases hp : process_content (if truthy c0 then c0 else JVal.obj []) with
    | error e =>
      have h2 : (process_content (if truthy c0 then c0 else JVal.obj [])).isOk = true := h
      rw [hp] at h2
      simp [Except.isOk, Except.toBool] at h2
    | ok r => exact ⟨c0, r, rfl, hp⟩

theorem processStructuredBody_error_mid (pre rest : List JVal) (wrap : JVal)
    (e : ExtErr) (hpre : pre.all sbItemOk = true)
    (hwrapc : ∃ c0, pyGet wrap "content" JVal.null = .ok c0 ∧ truthy c0 = true
      ∧ process_content c0 = .error e) :
    processStructuredBody (pre ++ wrap :: rest) = .error e := by
  induction pre with
  | nil =>
    obtain ⟨c0, hg, ht, hp⟩ := hwrapc
    simp [processStructuredBody, hg, ht, hp, bind, Except.bind]
  | cons x xs ih =>
    simp only [List.all_cons, Bool.and_eq_true] at hpre
    obtain ⟨c0, r, hg, hp⟩ := sbItemOk_exists x hpre.1
    simp [processStructuredBody, hg, hp, bind, Except.bind, ih hpre.2]

/-- C10: in `SVTPageIE._real_extract`, a content node whose `_type` is
`VIDEOCLIP` or `VIDEOEPISODE` but which lacks `image` (or whose `image` dict
lacks `svtId`) makes the playlist-entry construction raise a hard `KeyError`
instead of skipping the node — whether the node sits in the `media` list or in
a `structuredBody` entry's `content`, one malformed qualifying node aborts the
whole extraction (svt.py lines 414-418). -/
theorem page_malformed_node_aborts (akvs : List (String × JVal)) :
    (∀ (pre : List JVal) (bad : JVal) (rest : List JVal),
      List.lookup "media" akvs = some (.arr (pre ++ bad :: rest)) →
      pre.all contentOk = true → badQualMissing bad = true →
      ∃ k, page_entries (.obj akvs) = .error (.keyError k)
        ∧ (k = "image" ∨ k = "svtId"))
    ∧ (∀ (ml pre2 : List JVal) (wrap : JVal) (rest2 : List JVal),
      List.lookup "media" akvs = some (.arr ml) → ml.all contentOk = true →
      List.lookup "structuredBody" akvs = some (.arr (pre2 ++ wrap :: rest2)) →
      pre2.all sbItemOk = true → sbBad wrap = true →
      ∃ k, page_entries (.obj akvs) = .error (.keyError k)
        ∧ (k = "image" ∨ k = "svtId")) := by
  constructor
  · intro pre bad rest hm hpre hbad
    obtain ⟨k, hk, hor⟩ := process_content_bad_error bad hbad
    refine ⟨k, ?_, hor⟩
    have hmid := processMedia_error_mid pre rest bad (.keyError k) hpre hk
    simp [page_entries, pyGet, hm, pyIterList, bind, Except.bind, hmid]
  · intro ml pre2 wrap rest2 hm hml hsb hpre2 hwrap
    have hw : ∃ wkvs, wrap = JVal.obj wkvs := by
      match wrap, hwrap with
      | .obj wkvs, _ => exact ⟨wkvs, rfl⟩
    obtain ⟨wkvs, rfl⟩ := hw
    simp only [sbBad] at hwrap
    have hq : ∃ c0, List.lookup "content" wkvs = some c0 ∧ truthy c0 = true
        ∧ badQualMissing c0 = true := by
      split at hwrap
      case _ c0 heq =>
        simp only [Bool.and_eq_true] at hwrap
        exact ⟨c0, heq, hwrap.1, hwrap.2⟩
      case _ => exact absurd hwrap (by simp)
    obtain ⟨c0, hc0, htc0, hbq⟩ := hq
    obtain ⟨k, hk, hor⟩ := process_content_bad_error c0 hbq
    refine ⟨k, ?_, hor⟩
    obtain ⟨r1, hr1⟩ := processMedia_ok_of_all ml hml
    have hmid := processStructuredBody_error_mid pre2 rest2 (.obj wkvs) (.keyError k)
      hpre2 ⟨c0, by simp [pyGet, hc0], htc0, hk⟩
    simp [page_entries, pyGet, hm, hsb, pyIterList, bind, Except.bind, hr1, hmid]

/-- Witness for C10: a well-formed clip followed by a clip without `image`
aborts with a `KeyError`, in both the media and structured-body positions. -/
theorem page_malformed_node_aborts_witness :
    (∃ k, page_entries
        (.obj [("media",
          .arr [.obj [("_type", .str "VIDEOCLIP"), ("image", .obj [("svtId", .str "a1")])],
                .obj [("_type", .str "VIDEOEPISODE")]])]) =
        .error (.keyError k) ∧ (k = "image" ∨ k = "svtId"))
    ∧ (∃ k, page_entries
        (.obj [("media", .arr []),
               ("structuredBody",
                 .arr [.obj [("content",
                   .obj [("_type", .str "VIDEOCLIP"), ("image", .obj [])])]])]) =
        .error (.keyError k) ∧ (k = "image" ∨ k = "svtId")) :=
  ⟨(page_malformed_node_aborts
      [("media",
        .arr [.obj [("_type", .str "VIDEOCLIP"), ("image", .obj [("svtId", .str "a1")])],
              .obj [("_type", .str "VIDEOEPISODE")]])]).1
      [.obj [("_type", .str "VIDEOCLIP"), ("image", .obj [("svtId", .str "a1")])]]
      (.obj [("_type", .str "VIDEOEPISODE")]) [] rfl rfl rfl,
   (page_malformed_node_aborts
      [("media", .arr []),
       ("structuredBody",
         .arr [.obj [("content",
           .obj [("_type", .str "VIDEOCLIP"), ("image", .obj [])])]])]).2
      [] [] (.obj [("content", .obj [("_type", .str "VIDEOCLIP"), ("image", .obj [])])])
      [] rfl rfl rfl rfl rfl⟩
